import Mathlib

/-!
Verification development for the PianoLessonApp audio engine
(`src/audio/AudioEngine.ts` together with the pattern configuration in
`src/config/tracks.ts`).  The engine's numeric state is embedded over `ℚ`
(the TypeScript code performs ordinary IEEE arithmetic on values that are
exact in all the properties considered here), JavaScript `Map`s become
association lists in insertion order, and the Web-Audio graph objects
(`AudioContext`, gain nodes, sources) are tracked only through the
engine-state fields the claims talk about.  `detectBeatPoints` is a DSP
pass over decoded PCM floats; a decoded buffer is therefore modelled by
its duration together with the `BeatPoint` list that the detector returns
for it, which is exactly the interface `buildBarMapFromClick` consumes.
-/

namespace PianoEngine

/-- `src/config/tracks.ts`: `export const BASE_BPM = 80`. -/
def BASE_BPM : ℚ := 80

/-- `src/config/tracks.ts`: `export const MIN_BPM = 60`. -/
def MIN_BPM : ℚ := 60

/-- `src/config/tracks.ts`: `export const MAX_BPM = 100`. -/
def MAX_BPM : ℚ := 100

/-- `src/config/tracks.ts`: `export const BPM_STEP = 2`. -/
def BPM_STEP : ℚ := 2

/-- `src/config/tracks.ts`: `const AUDIO_REV = 'compare-v1'`. -/
def AUDIO_REV : String := "compare-v1"

/-- `AudioEngine.ts`: `const MASTER_GAIN_TARGET = 0.55`. -/
def MASTER_GAIN_TARGET : ℚ := 55 / 100

/-- `clamp(value, min, max) = Math.min(max, Math.max(min, value))`
(`AudioEngine.clamp`). -/
def clampQ (value lo hi : ℚ) : ℚ := min hi (max lo value)

/-- Integer version of `AudioEngine.clamp`, used for bar indices. -/
def clampZ (value lo hi : ℤ) : ℤ := min hi (max lo value)

/-- JavaScript `Math.round`: rounds half-way cases toward `+∞`,
i.e. `Math.round(x) = Math.floor(x + 0.5)`. -/
def jsRound (x : ℚ) : ℤ := ⌊x + 1 / 2⌋

/-- `AudioEngine.normalizeBpm`: clamp to `[MIN_BPM, MAX_BPM]`, round to the
`BPM_STEP` grid, clamp again. -/
def normalizeBpm (value : ℚ) : ℚ :=
  let clamped := clampQ value MIN_BPM MAX_BPM
  let stepped := (jsRound (clamped / BPM_STEP) : ℚ) * BPM_STEP
  clampQ stepped MIN_BPM MAX_BPM

/-- `TrackDefinition` from `src/config/tracks.ts`. -/
structure TrackDefinition where
  id : String
  label : String
  url : String
  initialVolume : ℚ
deriving DecidableEq

/-- `AudioPatternDefinition` from `src/config/tracks.ts`.  The partial map
`tempoHintsByDisplayBar` becomes an association list (`Object.entries`
enumeration order). -/
structure AudioPatternDefinition where
  id : String
  label : String
  description : String
  tracks : List TrackDefinition
  displayBars : List ℤ
  twoBeatDisplayBars : List ℤ
  tempoHintsByDisplayBar : List (ℤ × ℚ)
deriving DecidableEq

/-- `TRACK_META` from `src/config/tracks.ts`, label component. -/
def trackMetaLabel (id : String) : String :=
  if id = "violin" then "バイオリン"
  else if id = "cello" then "チェロ"
  else if id = "piano_r" then "ピアノ（右手）"
  else if id = "piano_l" then "ピアノ（左手）"
  else "クリック"

/-- `TRACK_META` from `src/config/tracks.ts`, initial-volume component. -/
def trackMetaVolume (id : String) : ℚ :=
  if id = "violin" then 85 / 100
  else if id = "cello" then 85 / 100
  else if id = "piano_r" then 9 / 10
  else if id = "piano_l" then 9 / 10
  else 55 / 100

/-- `const TRACK_ORDER: TrackId[] = [...]` from `src/config/tracks.ts`. -/
def TRACK_ORDER : List String := ["violin", "cello", "piano_r", "piano_l", "click"]

/-- `buildTracks` from `src/config/tracks.ts`. -/
def buildTracks (urlByTrack : String → String) : List TrackDefinition :=
  TRACK_ORDER.map (fun id =>
    { id := id
      label := trackMetaLabel id
      initialVolume := trackMetaVolume id
      url := urlByTrack id ++ "?v=" ++ AUDIO_REV })

/-- `buildDisplayBars` from `src/config/tracks.ts`: bars `0..firstPartLast`
followed by bars `102..110`. -/
def buildDisplayBars (includeBar72 : Bool) : List ℤ :=
  (List.range (if includeBar72 then 73 else 72)).map (fun bar => (bar : ℤ)) ++
    (List.range 9).map (fun bar => (102 + bar : ℤ))

/-- `NO72_TRACK_URLS` from `src/config/tracks.ts`. -/
def NO72_TRACK_URLS (id : String) : String :=
  if id = "violin" then "/audio/violin.mp3"
  else if id = "cello" then "/audio/cello.mp3"
  else if id = "piano_r" then "/audio/piano_r.mp3"
  else if id = "piano_l" then "/audio/piano_l.mp3"
  else "/audio/click.mp3"

/-- `WITH72_RIT_TRACK_URLS` from `src/config/tracks.ts`. -/
def WITH72_RIT_TRACK_URLS (id : String) : String :=
  if id = "violin" then "/audio/patterns/violin_72_rit.mp3"
  else if id = "cello" then "/audio/patterns/cello_72_rit.mp3"
  else if id = "piano_r" then "/audio/patterns/piano_r_72_rit.mp3"
  else if id = "piano_l" then "/audio/patterns/piano_l_72_rit.mp3"
  else "/audio/patterns/click_72_rit.mp3"

/-- The `no72` entry of `AUDIO_PATTERNS`. -/
def no72 : AudioPatternDefinition :=
  { id := "no72"
    label := "72小節なし"
    description := "72小節を省いた短縮版です。"
    tracks := buildTracks NO72_TRACK_URLS
    displayBars := buildDisplayBars false
    twoBeatDisplayBars := []
    tempoHintsByDisplayBar := [] }

/-- The `with72_rit` entry of `AUDIO_PATTERNS`: two-beat bar 72 with a
tempo hint of 60 bpm on that bar. -/
def with72_rit : AudioPatternDefinition :=
  { id := "with72_rit"
    label := "72小節あり（rit）"
    description := "72小節あり。72小節目は2拍子、リタルダンドありです。"
    tracks := buildTracks WITH72_RIT_TRACK_URLS
    displayBars := buildDisplayBars true
    twoBeatDisplayBars := [72]
    tempoHintsByDisplayBar := [(72, 60)] }

/-- `TRACKS` from `src/config/tracks.ts` (tracks of the default pattern). -/
def TRACKS : List TrackDefinition := no72.tracks

/-- `InternalTrackState` from `AudioEngine.ts`. -/
structure TrackState where
  mute : Bool
  solo : Bool
  volume : ℚ
  baseVolume : ℚ
  effectiveGain : ℚ
deriving DecidableEq

/-- `BeatPoint` from `AudioEngine.ts`. -/
structure BeatPoint where
  timeSec : ℚ
  strength : ℚ
  brightness : ℚ
deriving DecidableEq

/-- A decoded `AudioBuffer`, as `buildBarMapFromClick` consumes it: its
duration in seconds, plus the `BeatPoint` list that `detectBeatPoints`
returns for its PCM data (the detector itself is a float DSP pass whose
internals no claim touches). -/
structure DecodedBuffer where
  durationSec : ℚ
  beats : List BeatPoint
deriving DecidableEq

/-- The mutable fields of `class AudioEngine`.  JavaScript `Map`s/`Set`s
become association lists / lists in insertion order (all track ids of a
pattern are distinct, so first-match lookup coincides with `Map.get`).
`hasAudioCtx` tracks `audioCtx !== null`; the gain-node map is tracked by
its key set. -/
structure EngineState where
  tracks : List TrackDefinition
  displayScoreBars : List ℤ
  twoBeatBarIndexes : List ℕ
  tempoHintByBarIndex : List (ℕ × ℚ)
  hasAudioCtx : Bool
  trackGainNodes : List String
  buffers : List (String × DecodedBuffer)
  trackState : List (String × TrackState)
  activeSources : List String
  initialized : Bool
  loading : Bool
  playing : Bool
  bpm : ℚ
  durationSec : ℚ
  startContextSec : ℚ
  startInputOffsetSec : ℚ
  pausedInputOffsetSec : ℚ
  playbackRunId : ℕ
  barStartSec : List ℚ
  selectedStartBar : ℕ
deriving DecidableEq

/-- The `AudioEngine` constructor: resolve tracks and display bars, map the
configured two-beat display bars and tempo hints to pattern indexes via
`indexOf` (the `index >= 0` guard becomes `index < length`; the
`Number.isFinite` guards hold for every `ℚ`), and seed the per-track mix
state with `volume = 1`, `effectiveGain = initialVolume`. -/
def mkEngine (pattern : AudioPatternDefinition) : EngineState :=
  let tracks := if pattern.tracks.length > 0 then pattern.tracks else TRACKS
  let displayScoreBars := if pattern.displayBars.length > 0 then pattern.displayBars else [0]
  let twoBeatBarIndexes := pattern.twoBeatDisplayBars.filterMap (fun displayBar =>
    let index := displayScoreBars.indexOf displayBar
    if index < displayScoreBars.length then some index else none)
  let tempoHintByBarIndex := pattern.tempoHintsByDisplayBar.filterMap (fun entry =>
    let index := displayScoreBars.indexOf entry.1
    if index < displayScoreBars.length then some (index, entry.2) else none)
  { tracks := tracks
    displayScoreBars := displayScoreBars
    twoBeatBarIndexes := twoBeatBarIndexes
    tempoHintByBarIndex := tempoHintByBarIndex
    hasAudioCtx := false
    trackGainNodes := []
    buffers := []
    trackState := tracks.map (fun track =>
      (track.id,
        { mute := false
          solo := false
          volume := 1
          baseVolume := track.initialVolume
          effectiveGain := track.initialVolume }))
    activeSources := []
    initialized := false
    loading := false
    playing := false
    bpm := BASE_BPM
    durationSec := 0
    startContextSec := 0
    startInputOffsetSec := 0
    pausedInputOffsetSec := 0
    playbackRunId := 0
    barStartSec := [0]
    selectedStartBar := 0 }

/-- `Array.from(this.trackState.values()).some((state) => state.solo)`. -/
def mixHasSolo (trackState : List (String × TrackState)) : Bool :=
  trackState.any (fun entry => entry.2.solo)

/-- `audible = (!hasSolo || state.solo) && !state.mute`
(`AudioEngine.applyTrackMix`). -/
def trackAudible (hasSolo : Bool) (state : TrackState) : Bool :=
  (!hasSolo || state.solo) && !state.mute

/-- One track's update inside `applyTrackMix`:
`state.effectiveGain = audible ? state.baseVolume * state.volume : 0`. -/
def recomputeGain (hasSolo : Bool) (state : TrackState) : TrackState :=
  { state with
    effectiveGain := if trackAudible hasSolo state then state.baseVolume * state.volume else 0 }

/-- `AudioEngine.applyTrackMix` on the per-track state map.  The source
iterates `this.tracks` and updates the map entry of each track; since the
constructor keys the map exactly by the ids of `this.tracks`, this updates
precisely every map entry, which is how it is written here.  (The final
`gainNode.gain.setTargetAtTime` is an audio-graph side effect.) -/
def applyTrackMixState (trackState : List (String × TrackState)) : List (String × TrackState) :=
  let hasSolo := mixHasSolo trackState
  trackState.map (fun entry => (entry.1, recomputeGain hasSolo entry.2))

/-- `applyTrackMix` as a step on the whole engine state. -/
def applyTrackMix (e : EngineState) : EngineState :=
  { e with trackState := applyTrackMixState e.trackState }

/-- `AudioEngine.toggleMute`: no-op when the id has no state entry. -/
def toggleMute (e : EngineState) (trackId : String) : EngineState :=
  match e.trackState.lookup trackId with
  | none => e
  | some _ =>
    applyTrackMix
      { e with
        trackState := e.trackState.map (fun entry =>
          if entry.1 = trackId then (entry.1, { entry.2 with mute := !entry.2.mute }) else entry) }

/-- `AudioEngine.toggleSolo`: no-op when the id has no state entry. -/
def toggleSolo (e : EngineState) (trackId : String) : EngineState :=
  match e.trackState.lookup trackId with
  | none => e
  | some _ =>
    applyTrackMix
      { e with
        trackState := e.trackState.map (fun entry =>
          if entry.1 = trackId then (entry.1, { entry.2 with solo := !entry.2.solo }) else entry) }

/-- `AudioEngine.setVolume`: clamps the volume to `[0,1]`; no-op when the
id has no state entry. -/
def setVolume (e : EngineState) (trackId : String) (volume : ℚ) : EngineState :=
  match e.trackState.lookup trackId with
  | none => e
  | some _ =>
    applyTrackMix
      { e with
        trackState := e.trackState.map (fun entry =>
          if entry.1 = trackId then (entry.1, { entry.2 with volume := clampQ volume 0 1 })
          else entry) }

/-- `AudioEngine.getTempoRatio`: `this.bpm / BASE_BPM`. -/
def getTempoRatio (e : EngineState) : ℚ := e.bpm / BASE_BPM

/-- `AudioEngine.clampInputOffset`. -/
def clampInputOffset (e : EngineState) (value : ℚ) : ℚ :=
  if e.durationSec ≤ 0 then 0 else clampQ value 0 e.durationSec

/-- `AudioEngine.getCurrentInputSec`, with the output clock passed as
`now` (`this.audioCtx.currentTime`).  The source guard is
`!this.playing || !this.audioCtx`; `playing` is set only after a non-null
context exists, so the flag alone decides the branch. -/
def getCurrentInputSec (e : EngineState) (now : ℚ) : ℚ :=
  if e.playing then
    clampInputOffset e
      (e.startInputOffsetSec + max 0 (now - e.startContextSec) * getTempoRatio e)
  else
    clampInputOffset e e.pausedInputOffsetSec

/-- `AudioEngine.getMaxBar` (the local `maxPatternIndex = max(0,
displayScoreBars.length - 1)` is inlined). -/
def getMaxBar (e : EngineState) : ℕ :=
  (clampZ
    (min (max 0 ((e.displayScoreBars.length : ℤ) - 1)) ((e.barStartSec.length : ℤ) - 1))
    0 (max 0 ((e.displayScoreBars.length : ℤ) - 1))).toNat

/-- `AudioEngine.clampBarNumber` on an integer bar value. -/
def clampBarNumberZ (e : EngineState) (bar : ℤ) : ℕ :=
  (clampZ bar 0 (getMaxBar e : ℤ)).toNat

/-- `AudioEngine.clampBarNumber` on a natural bar value. -/
def clampBarNumberN (e : EngineState) (bar : ℕ) : ℕ :=
  clampBarNumberZ e (bar : ℤ)

/-- `mid = Math.floor((low + high) / 2)` in `findBarByInputSec`. -/
def bsMid (low high : ℤ) : ℤ := ⌊((low : ℚ) + (high : ℚ)) / 2⌋

/-- The `while (low <= high)` binary-search loop of
`AudioEngine.findBarByInputSec`; returns the final `high`. -/
def bsLoop (table : List ℚ) (inputSec : ℚ) (low high : ℤ) : ℤ :=
  if low ≤ high then
    if table.getD (bsMid low high).toNat 0 ≤ inputSec then
      bsLoop table inputSec (bsMid low high + 1) high
    else
      bsLoop table inputSec low (bsMid low high - 1)
  else high
termination_by (high + 1 - low).toNat
decreasing_by
  · have h1 : low ≤ bsMid low high := by
      have : ((low : ℚ)) ≤ ((low : ℚ) + (high : ℚ)) / 2 := by
        have : ((low : ℚ)) ≤ (high : ℚ) := by exact_mod_cast (by assumption : low ≤ high)
        linarith
      exact Int.le_floor.mpr (by linarith)
    have h2 : bsMid low high ≤ high := by
      have hc : ((low : ℚ) + (high : ℚ)) / 2 ≤ ((high : ℚ)) := by
        have : ((low : ℚ)) ≤ (high : ℚ) := by exact_mod_cast (by assumption : low ≤ high)
        linarith
      calc bsMid low high ≤ ⌊((high : ℤ) : ℚ)⌋ := Int.floor_mono hc
        _ = high := Int.floor_intCast high
    omega
  · have h2 : bsMid low high ≤ high := by
      have hc : ((low : ℚ) + (high : ℚ)) / 2 ≤ ((high : ℚ)) := by
        have : ((low : ℚ)) ≤ (high : ℚ) := by exact_mod_cast (by assumption : low ≤ high)
        linarith
      calc bsMid low high ≤ ⌊((high : ℤ) : ℚ)⌋ := Int.floor_mono hc
        _ = high := Int.floor_intCast high
    omega

/-- `AudioEngine.findBarByInputSec`: binary search over `barStartSec`,
clamped through `clampBarNumber`. -/
def findBarByInputSec (e : EngineState) (inputSec : ℚ) : ℕ :=
  if e.barStartSec.length ≤ 1 then 0
  else clampBarNumberZ e (bsLoop e.barStartSec inputSec 0 ((e.barStartSec.length : ℤ) - 1))

/-- `AudioEngine.getBarStartSec`: `this.barStartSec[normalizedBar] ?? 0`. -/
def getBarStartSec (e : EngineState) (bar : ℕ) : ℚ :=
  e.barStartSec.getD (clampBarNumberN e bar) 0

/-- `AudioEngine.setBpm`.  Re-anchors the playing run to the captured
position before storing the normalized bpm; the trailing
`setTempoParameters` / `setActiveSourcePlaybackRate` calls only ramp
audio-graph parameters.  `now` is the output clock reading
(`this.audioCtx.currentTime`); the source guard `this.playing &&
this.audioCtx` is the `playing` flag (set only with a context present),
and the source's locals `normalized` / `currentInputSec` are inlined. -/
def setBpm (e : EngineState) (nextBpm : ℚ) (now : ℚ) : EngineState :=
  if normalizeBpm nextBpm = e.bpm then e
  else if e.playing then
    { e with
      startContextSec := now
      startInputOffsetSec := clampInputOffset e (getCurrentInputSec e now)
      pausedInputOffsetSec := clampInputOffset e (getCurrentInputSec e now)
      selectedStartBar := findBarByInputSec e (clampInputOffset e (getCurrentInputSec e now))
      bpm := normalizeBpm nextBpm }
  else { e with bpm := normalizeBpm nextBpm }

/-- `AudioEngine.changeBpm`: `setBpm(this.bpm + delta)`. -/
def changeBpm (e : EngineState) (delta : ℚ) (now : ℚ) : EngineState :=
  setBpm e (e.bpm + delta) now

/-- `AudioEngine.resetBpm`: `setBpm(BASE_BPM)`. -/
def resetBpm (e : EngineState) (now : ℚ) : EngineState :=
  setBpm e BASE_BPM now

/-- `AudioEngine.getBarBeatCount`:
`this.twoBeatBarIndexes.has(barIndex) ? 2 : 4`. -/
def getBarBeatCount (e : EngineState) (barIndex : ℕ) : ℕ :=
  if barIndex ∈ e.twoBeatBarIndexes then 2 else 4

/-- `AudioEngine.getExpectedBarDurationSec`.  The JavaScript guard
`hintBpm && hintBpm > 0` on a looked-up number is `0 < hintBpm` (zero is
falsy anyway, and `NaN` has no counterpart in `ℚ`). -/
def getExpectedBarDurationSec (e : EngineState) (barIndex beatCount : ℕ)
    (fallbackBeatSec : ℚ) : ℚ :=
  match e.tempoHintByBarIndex.lookup barIndex with
  | some hintBpm =>
    if 0 < hintBpm then (60 / hintBpm) * (beatCount : ℚ)
    else fallbackBeatSec * (beatCount : ℚ)
  | none => fallbackBeatSec * (beatCount : ℚ)

/-- The per-bar duration `buildFallbackBarStarts` accumulates:
`getExpectedBarDurationSec(bar, getBarBeatCount(bar), 60 / BASE_BPM)`. -/
def fallbackExpected (e : EngineState) (bar : ℕ) : ℚ :=
  getExpectedBarDurationSec e bar (getBarBeatCount e bar) (60 / BASE_BPM)

/-- Cursor value of `buildFallbackBarStarts` before iteration `bar`:
the accumulated expected durations of bars `0..bar-1`. -/
def cumExpected (e : EngineState) : ℕ → ℚ
  | 0 => 0
  | bar + 1 => cumExpected e bar + fallbackExpected e bar

/-- Body of the `for (let bar = 0; bar < targetBarCount; ...)` loop of
`AudioEngine.buildFallbackBarStarts`, recursing on the number of
`remaining` iterations (`targetBarCount - bar`); the loop locals `sec =
min(durationSec, cursorSec)` and the conditional push are inlined. -/
def fallbackLoop (e : EngineState) (durationSec : ℚ) :
    ℕ → ℕ → ℚ → List ℚ → List ℚ
  | 0, _, _, bars => bars
  | remaining + 1, bar, cursorSec, bars =>
    fallbackLoop e durationSec remaining (bar + 1)
      (cursorSec + getExpectedBarDurationSec e bar (getBarBeatCount e bar) (60 / BASE_BPM))
      (if bars.isEmpty then bars ++ [min durationSec cursorSec]
       else if 1 / 25 < min durationSec cursorSec - bars.getLastD 0 then
         bars ++ [min durationSec cursorSec]
       else bars)

/-- `AudioEngine.buildFallbackBarStarts`: accumulate expected per-bar
durations from 0, duration-capped, pushing a bar start when it exceeds the
previous one by more than `0.04`; `[0]` when nothing was produced. -/
def buildFallbackBarStarts (e : EngineState) (durationSec : ℚ) (targetBarCount : ℕ) : List ℚ :=
  if 0 < (fallbackLoop e durationSec targetBarCount 0 0 []).length then
    fallbackLoop e durationSec targetBarCount 0 0 []
  else [0]

/-- `AudioEngine.normalize`: affine rescale of a list onto `[0,1]`
(`Math.min(...values)` / `Math.max(...values)` over the whole list), or
all zeros when the spread is below `1e-9`. -/
def normalizeList (values : List ℚ) : List ℚ :=
  match values with
  | [] => []
  | v :: rest =>
    let mn := rest.foldl min v
    let mx := rest.foldl max v
    if |mx - mn| < 1 / 1000000000 then values.map (fun _ => 0)
    else values.map (fun value => (value - mn) / (mx - mn))

/-- `AudioEngine.median`: midpoint of the ascending sort. -/
def medianQ (values : List ℚ) : Option ℚ :=
  if values.length = 0 then none
  else
    let sorted := List.insertionSort (· ≤ ·) values
    let mid := sorted.length / 2
    if sorted.length % 2 = 0 then some ((sorted.getD (mid - 1) 0 + sorted.getD mid 0) / 2)
    else some (sorted.getD mid 0)

/-- The beat-to-beat interval collection in `deriveBarStartsFromBeats`:
adjacent deltas filtered to `(0.2, 1.6)`. -/
def collectIntervals (beatTimes : List ℚ) : List ℚ :=
  (List.range beatTimes.length).filterMap (fun i =>
    if i = 0 then none
    else
      let delta := beatTimes.getD i 0 - beatTimes.getD (i - 1) 0
      if 1 / 5 < delta ∧ delta < 8 / 5 then some delta else none)

/-- `starts[0] = 0` in `deriveBarStartsFromBeats`. -/
def setHead0 : List ℚ → List ℚ
  | [] => []
  | _ :: rest => 0 :: rest

/-- The de-duplication pass of `deriveBarStartsFromBeats`: keep a value
when the list is empty or it exceeds the last kept value by more
than `0.08`. -/
def dedupeBars (acc : List ℚ) : List ℚ → List ℚ
  | [] => acc
  | value :: rest =>
    if acc.isEmpty then dedupeBars (acc ++ [value]) rest
    else if 2 / 25 < value - acc.getLastD 0 then dedupeBars (acc ++ [value]) rest
    else dedupeBars acc rest

/-- The `while (deduped.length < targetBarCount)` extension loop of
`deriveBarStartsFromBeats`: append `min(duration, last + fallbackBarSec)`
until the target length is reached or the step falls below `0.05`.  Each
iteration appends exactly one element, so running it on `fuel =
targetBarCount` iterations is the exact while loop. -/
def extendBars (durationSec fallbackBarSec : ℚ) (targetBarCount : ℕ) :
    ℕ → List ℚ → List ℚ
  | 0, acc => acc
  | fuel + 1, acc =>
    if acc.length < targetBarCount then
      if min durationSec (acc.getLastD 0 + fallbackBarSec) ≤ acc.getLastD 0 + 1 / 20 then acc
      else
        extendBars durationSec fallbackBarSec targetBarCount fuel
          (acc ++ [min durationSec (acc.getLastD 0 + fallbackBarSec)])
    else acc

/-- `impossible = -1e9` in `deriveBarStartsFromBeats`. -/
def dpImpossible : ℚ := -1000000000

/-- The forward dynamic program of `deriveBarStartsFromBeats`: `dp` scores
and `prev` back-pointers over (bar, beat index), transitions consuming 2
or 4 beats (the bar's configured count first), scored by landing-beat
confidence, duration fit against the expected span, and a meter
preference penalty. -/
def buildDpTables (e : EngineState) (beatTimes startScore : List ℚ)
    (medianBeatSec : ℚ) (fittedBarCount beatCount : ℕ) :
    Array (Array ℚ) × Array (Array ℤ) :=
  Id.run do
    let mut dp : Array (Array ℚ) :=
      Array.mkArray fittedBarCount (Array.mkArray beatCount dpImpossible)
    let mut prevTable : Array (Array ℤ) :=
      Array.mkArray fittedBarCount (Array.mkArray beatCount (-1))
    dp := dp.setD 0 ((dp.getD 0 #[]).setD 0 0)
    for bar in [0 : fittedBarCount - 1] do
      for currentBeat in [0 : beatCount] do
        let currentScore := (dp.getD bar #[]).getD currentBeat dpImpossible
        if currentScore ≤ dpImpossible / 2 then
          continue
        let preferredBeatCount := getBarBeatCount e bar
        let stepCandidates := if preferredBeatCount = 2 then [2, 4] else [4, 2]
        for step in stepCandidates do
          let nextBeat := currentBeat + step
          if beatCount ≤ nextBeat then
            continue
          let barDurationSec := beatTimes.getD nextBeat 0 - beatTimes.getD currentBeat 0
          let expectedSec := getExpectedBarDurationSec e bar step medianBeatSec
          let durationPenalty :=
            -|barDurationSec - expectedSec| / max (expectedSec * (45 / 100)) (12 / 100)
          let meterPenalty : ℚ := if step = preferredBeatCount then 0 else -(14 / 10)
          let score := currentScore + startScore.getD nextBeat 0 + durationPenalty + meterPenalty
          if (dp.getD (bar + 1) #[]).getD nextBeat dpImpossible < score then
            dp := dp.setD (bar + 1) ((dp.getD (bar + 1) #[]).setD nextBeat score)
            prevTable := prevTable.setD (bar + 1)
              ((prevTable.getD (bar + 1) #[]).setD nextBeat (currentBeat : ℤ))
    return (dp, prevTable)

/-- Terminal-beat selection of `deriveBarStartsFromBeats`: maximize the
last bar's score minus a penalty on leftover beats deviating from 4;
`-1` when nothing beats the `impossible` floor. -/
def chooseBestEnd (dp : Array (Array ℚ)) (lastBar beatCount : ℕ) : ℤ :=
  Id.run do
    let mut bestEndBeat : ℤ := -1
    let mut bestScore : ℚ := dpImpossible
    for beatIndex in [0 : beatCount] do
      let remainingBeats : ℤ := ((beatCount : ℤ) - 1) - (beatIndex : ℤ)
      let terminalPenalty : ℚ := -|(remainingBeats : ℚ) - 4| * (45 / 1000)
      let score := (dp.getD lastBar #[]).getD beatIndex dpImpossible + terminalPenalty
      if bestScore < score then
        bestScore := score
        bestEndBeat := (beatIndex : ℤ)
    return bestEndBeat

/-- The backtracking loop `for (let bar = lastBar; bar > 0; bar -= 1)` of
`deriveBarStartsFromBeats`; `none` mirrors the early
`return buildFallbackBarStarts(...)` when a back-pointer is missing. -/
def backtrackStarts (prevTable : Array (Array ℤ)) :
    ℕ → Array ℕ → Option (Array ℕ)
  | 0, beatIndexStarts => some beatIndexStarts
  | bar + 1, beatIndexStarts =>
    if (prevTable.getD (bar + 1) #[]).getD (beatIndexStarts.getD (bar + 1) 0) (-1) < 0 then
      none
    else
      backtrackStarts prevTable bar
        (beatIndexStarts.setD bar
          ((prevTable.getD (bar + 1) #[]).getD (beatIndexStarts.getD (bar + 1) 0) (-1)).toNat)

/-- The tail of `deriveBarStartsFromBeats` after the forward DP: choose
the terminal beat (`bestEndBeat < 0` falls back to the uniform grid),
backtrack (a missing back-pointer falls back too), then force the first
emitted start to exactly 0, de-duplicate, extend toward the target count
with `fallbackBarSec = medianBeatSec * 4`, and truncate to the target. -/
def deriveFinish (e : EngineState) (beatTimes : List ℚ)
    (durationSec medianBeatSec : ℚ) (targetBarCount fittedBarCount : ℕ)
    (tables : Array (Array ℚ) × Array (Array ℤ)) : List ℚ :=
  if chooseBestEnd tables.1 (fittedBarCount - 1) beatTimes.length < 0 then
    buildFallbackBarStarts e durationSec targetBarCount
  else
    match backtrackStarts tables.2 (fittedBarCount - 1)
        ((Array.mkArray fittedBarCount 0).setD (fittedBarCount - 1)
          (chooseBestEnd tables.1 (fittedBarCount - 1) beatTimes.length).toNat) with
    | none => buildFallbackBarStarts e durationSec targetBarCount
    | some beatIndexStarts =>
      (extendBars durationSec (medianBeatSec * 4) targetBarCount targetBarCount
        (dedupeBars []
          (setHead0 (beatIndexStarts.toList.map (fun index => beatTimes.getD index 0))))).take
        targetBarCount

/-- `AudioEngine.deriveBarStartsFromBeats`.  `fittedBarCount` and
`maxPossibleBars` are computed with `Math.floor` semantics over `ℤ`
(`Int.fdiv`); the post-DP part lives in `deriveFinish`. -/
def deriveBarStartsFromBeats (e : EngineState) (beats : List BeatPoint)
    (durationSec : ℚ) (targetBarCount : ℕ) : List ℚ :=
  let beatTimes := beats.map (fun beat => beat.timeSec)
  let beatStrength := normalizeList (beats.map (fun beat => beat.strength))
  let beatBrightness := normalizeList (beats.map (fun beat => beat.brightness))
  let startScore := (List.range beatStrength.length).map (fun index =>
    beatStrength.getD index 0 * (72 / 100) + beatBrightness.getD index 0 * (28 / 100))
  let intervals := collectIntervals beatTimes
  let medianBeatSec := (medianQ intervals).getD (60 / BASE_BPM)
  let beatCount := beatTimes.length
  let maxPossibleBars : ℤ := ((beatCount : ℤ) - 1).fdiv 2 + 1
  let fittedBarCount : ℕ := (min (targetBarCount : ℤ) (max 2 maxPossibleBars)).toNat
  let tables := buildDpTables e beatTimes startScore medianBeatSec fittedBarCount beatCount
  deriveFinish e beatTimes durationSec medianBeatSec targetBarCount fittedBarCount tables

/-- `AudioEngine.buildBarMapFromClick`: rebuilds `barStartSec` from the
click buffer's detected beats, with the uniform-grid fallback when the
buffer is missing, too few beats were detected, or alignment produced
nothing; then re-clamps `selectedStartBar` against the new table. -/
def buildBarMapFromClick (e : EngineState) : EngineState :=
  let targetBarCount := e.displayScoreBars.length
  match e.buffers.lookup "click" with
  | none => { e with barStartSec := [0], selectedStartBar := 0 }
  | some clickBuffer =>
    let beats := clickBuffer.beats
    let beatTimes := beats.map (fun beat => beat.timeSec)
    let minBeatCount := max 24 (targetBarCount * 2)
    if beatTimes.length < minBeatCount then
      let e1 := { e with
        barStartSec := buildFallbackBarStarts e clickBuffer.durationSec targetBarCount }
      { e1 with selectedStartBar := clampBarNumberN e1 e1.selectedStartBar }
    else
      let starts := deriveBarStartsFromBeats e beats clickBuffer.durationSec targetBarCount
      let e1 := { e with
        barStartSec :=
          if 0 < starts.length then starts
          else buildFallbackBarStarts e clickBuffer.durationSec targetBarCount }
      { e1 with selectedStartBar := clampBarNumberN e1 e1.selectedStartBar }

/-- `AudioEngine.disposeNodes`: stop sources (bumping the run id),
disconnect and drop every node, close the context, clear the buffers, and
reset all playback/bar bookkeeping.  The per-track mix state and the bpm
are deliberately not touched by the source and stay untouched here. -/
def disposeNodes (e : EngineState) : EngineState :=
  { e with
    playbackRunId := e.playbackRunId + 1
    activeSources := []
    trackGainNodes := []
    hasAudioCtx := false
    buffers := []
    initialized := false
    loading := false
    playing := false
    durationSec := 0
    startContextSec := 0
    startInputOffsetSec := 0
    pausedInputOffsetSec := 0
    barStartSec := [0]
    selectedStartBar := 0 }

/-- `AudioEngine.loadTrackBuffers` effect on the state once every fetch
and decode succeeded: store the buffers and the maximal duration.
(`Promise.all` writes nothing on failure.) -/
def loadTrackBuffersEffect (e : EngineState)
    (loadedBuffers : List (String × DecodedBuffer)) : EngineState :=
  { e with
    buffers := loadedBuffers
    durationSec := loadedBuffers.foldl (fun mx entry => max mx entry.2.durationSec) 0 }

/-- Outcome of one `init()` attempt, as delivered by the environment:
either some stage threw — `ctxCreated` / `gainNodesCreated` /
`mixApplied` record how far the `try` block got before the exception,
i.e. which state mutations `disposeNodes` has to undo (buffers and the
bar map are only written after every awaited step succeeded) — or every
stage succeeded and the loader delivered the decoded buffers. -/
inductive InitOutcome where
  | failure (ctxCreated gainNodesCreated mixApplied : Bool)
  | success (loadedBuffers : List (String × DecodedBuffer))

/-- `AudioEngine.init`: idempotent while `initialized || loading`;
on failure the `catch` block runs `disposeNodes` and the `finally` block
clears `loading`; on success it allocates the graph, applies the mix,
loads the buffers, builds the bar map and marks the engine initialized. -/
def init (e : EngineState) (outcome : InitOutcome) : EngineState :=
  if e.initialized || e.loading then e
  else
    match outcome with
    | .failure ctxCreated gainNodesCreated mixApplied =>
      let e1 := { e with loading := true }
      let e2 := if ctxCreated then { e1 with hasAudioCtx := true } else e1
      let e3 :=
        if gainNodesCreated then
          { e2 with trackGainNodes := e2.tracks.map (fun track => track.id) }
        else e2
      let e4 := if mixApplied then applyTrackMix e3 else e3
      let e5 := disposeNodes e4
      { e5 with loading := false }
    | .success loadedBuffers =>
      let e1 := { e with
        loading := true
        hasAudioCtx := true
        trackGainNodes := e.tracks.map (fun track => track.id) }
      let e2 := applyTrackMix e1
      let e3 := loadTrackBuffersEffect e2 loadedBuffers
      let e4 := buildBarMapFromClick e3
      { e4 with initialized := true, loading := false }

/-- Modelled from the spec: the position-query formula of §4.3 /
claim C5, written exactly as the spec states it —
`currentInputSec = Playing ? clamp(startInputOffsetSec +
(outputClockNow − startContextSec) × tempoRatio, 0, duration) :
clamp(pausedInputOffsetSec, 0, duration)` — for comparison with
`getCurrentInputSec`, whose elapsed term is `Math.max(0, …)`-guarded. -/
def specCurrentInputSec (e : EngineState) (now : ℚ) : ℚ :=
  if e.playing then
    clampQ (e.startInputOffsetSec + (now - e.startContextSec) * getTempoRatio e) 0 e.durationSec
  else
    clampQ e.pausedInputOffsetSec 0 e.durationSec

/-- A reachable playing state used to separate `getCurrentInputSec` from
the spec formula: sources were scheduled a little in the future
(`startContextSec = 1`) and the clock is read at `now = 0 <
startContextSec`. -/
def engineC5 : EngineState :=
  { mkEngine no72 with
    playing := true
    durationSec := 10
    startContextSec := 1
    startInputOffsetSec := 1
    pausedInputOffsetSec := 1 }

/-- Concrete playing engine used to instantiate the tempo-change claims. -/
def enginePlayingW : EngineState :=
  { mkEngine no72 with
    playing := true
    durationSec := 10
    startContextSec := 2
    startInputOffsetSec := 3
    pausedInputOffsetSec := 3 }

/-- Engine at bpm 98 for the `changeBpm(+100)` scenario. -/
def engineAt98 : EngineState := { mkEngine no72 with bpm := 98 }

/-- Engine at bpm 60 for the `changeBpm(-100)` scenario. -/
def engineAt60 : EngineState := { mkEngine no72 with bpm := 60 }

/-- The engine constructed from the `with72_rit` pattern. -/
def engineWith72Rit : EngineState := mkEngine with72_rit

/-- Concrete bar table used to instantiate the bar-lookup claim. -/
def engineC6 : EngineState :=
  { mkEngine no72 with
    displayScoreBars := [0, 1, 2, 3]
    barStartSec := [0, 2, 5] }

/-- A 10-second click buffer on which detection found no beats. -/
def clickC7 : DecodedBuffer := { durationSec := 10, beats := [] }

/-- Engine whose click track yielded no beats, used to instantiate the
fallback claim: three display bars, a 10-second click buffer. -/
def engineC7 : EngineState :=
  { mkEngine no72 with
    displayScoreBars := [0, 1, 2]
    buffers := [("click", clickC7)] }

/-- One mixer command: `toggleMute`, `toggleSolo` or `setVolume`. -/
inductive MixOp where
  | mute (trackId : String)
  | solo (trackId : String)
  | vol (trackId : String) (volume : ℚ)
deriving DecidableEq

/-- Dispatch one mixer command on the engine. -/
def applyMixOp (e : EngineState) : MixOp → EngineState
  | .mute trackId => toggleMute e trackId
  | .solo trackId => toggleSolo e trackId
  | .vol trackId volume => setVolume e trackId volume

/-- Run a sequence of mixer commands. -/
def runMixOps (e : EngineState) (ops : List MixOp) : EngineState :=
  ops.foldl applyMixOp e

/-- The §3 mixing invariant: every track's `effectiveGain` is
`baseVolume * volume` when the track is audible and `0` otherwise, where
audibility is `(no solo set anywhere OR this track solo) AND NOT mute`. -/
def mixInvariant (trackState : List (String × TrackState)) : Prop :=
  ∀ entry ∈ trackState,
    entry.2.effectiveGain =
      if trackAudible (mixHasSolo trackState) entry.2 then
        entry.2.baseVolume * entry.2.volume
      else 0

theorem mixHasSolo_applyTrackMixState (trackState : List (String × TrackState)) :
    mixHasSolo (applyTrackMixState trackState) = mixHasSolo trackState := by
  simp [mixHasSolo, applyTrackMixState, List.any_map, Function.comp_def, recomputeGain]

theorem mixInvariant_applyTrackMixState (trackState : List (String × TrackState)) :
    mixInvariant (applyTrackMixState trackState) := by
  intro entry hmem
  rw [mixHasSolo_applyTrackMixState]
  simp only [applyTrackMixState, List.mem_map] at hmem
  obtain ⟨a, _, rfl⟩ := hmem
  simp [recomputeGain, trackAudible]

theorem mixInvariant_applyMixOp (e : EngineState) (op : MixOp)
    (h : mixInvariant e.trackState) : mixInvariant (applyMixOp e op).trackState := by
  cases op <;>
    · simp only [applyMixOp, toggleMute, toggleSolo, setVolume]
      split
      · exact h
      · exact mixInvariant_applyTrackMixState _

theorem mixInvariant_mkEngine (pattern : AudioPatternDefinition) :
    mixInvariant (mkEngine pattern).trackState := by
  intro entry hmem
  have hsolo : mixHasSolo (mkEngine pattern).trackState = false := by
    simp [mkEngine, mixHasSolo, List.any_map, Function.comp]
  rw [hsolo]
  simp only [mkEngine, List.mem_map] at hmem
  obtain ⟨track, _, rfl⟩ := hmem
  simp [trackAudible]

/-- Claim C1: after every sequence of `toggleMute`, `toggleSolo` and
`setVolume` calls on a freshly constructed engine, every track's
`effectiveGain` is `baseVolume * volume` when the track is audible —
`(no track has solo OR this track has solo) AND NOT mute` — and `0`
otherwise; in particular a muted track has gain 0 even when soloed, and
once any solo is set every non-solo track has gain 0.  The invariant is
stated over every track of the state, so each call recomputes all of
them. -/
theorem mix_effective_gain_invariant (pattern : AudioPatternDefinition) (ops : List MixOp) :
    mixInvariant (runMixOps (mkEngine pattern) ops).trackState ∧
    (∀ entry ∈ (runMixOps (mkEngine pattern) ops).trackState,
      entry.2.mute = true → entry.2.effectiveGain = 0) ∧
    (∀ entry ∈ (runMixOps (mkEngine pattern) ops).trackState,
      mixHasSolo (runMixOps (mkEngine pattern) ops).trackState = true →
      entry.2.solo = false → entry.2.effectiveGain = 0) := by
  have hinv : ∀ (ops' : List MixOp) (e : EngineState), mixInvariant e.trackState →
      mixInvariant (runMixOps e ops').trackState := by
    intro ops'
    induction ops' with
    | nil => intro e h; exact h
    | cons op rest ih =>
      intro e h
      exact ih _ (mixInvariant_applyMixOp e op h)
  have h := hinv ops (mkEngine pattern) (mixInvariant_mkEngine pattern)
  refine ⟨h, ?_, ?_⟩
  · intro entry hmem hmute
    rw [h entry hmem]
    simp [trackAudible, hmute]
  · intro entry hmem hsolo hself
    rw [h entry hmem]
    simp [trackAudible, hsolo, hself]

/-- Witness for C1: the invariant and its consequences after soloing the
violin track of the default pattern. -/
theorem mix_effective_gain_invariant_witness :
    mixInvariant (runMixOps (mkEngine no72) [MixOp.solo "violin"]).trackState ∧
    (∀ entry ∈ (runMixOps (mkEngine no72) [MixOp.solo "violin"]).trackState,
      entry.2.mute = true → entry.2.effectiveGain = 0) ∧
    (∀ entry ∈ (runMixOps (mkEngine no72) [MixOp.solo "violin"]).trackState,
      mixHasSolo (runMixOps (mkEngine no72) [MixOp.solo "violin"]).trackState = true →
      entry.2.solo = false → entry.2.effectiveGain = 0) :=
  mix_effective_gain_invariant no72 [MixOp.solo "violin"]

/-- Claim C10: mixer commands with an unconfigured track id change
nothing at all. -/
theorem mixer_ops_unknown_id_noop (e : EngineState) (trackId : String) (volume : ℚ)
    (h : e.trackState.lookup trackId = none) :
    toggleMute e trackId = e ∧ toggleSolo e trackId = e ∧ setVolume e trackId volume = e := by
  refine ⟨?_, ?_, ?_⟩ <;> simp [toggleMute, toggleSolo, setVolume, h]

/-- Witness for C10: a track id outside the configured set is a no-op on
the default engine. -/
theorem mixer_ops_unknown_id_noop_witness :
    (mkEngine no72).trackState.lookup "flute" = none ∧
    (toggleMute (mkEngine no72) "flute" = mkEngine no72 ∧
     toggleSolo (mkEngine no72) "flute" = mkEngine no72 ∧
     setVolume (mkEngine no72) "flute" (1 / 2) = mkEngine no72) :=
  ⟨by decide, mixer_ops_unknown_id_noop (mkEngine no72) "flute" (1 / 2) (by decide)⟩

theorem le_clampQ (value lo hi : ℚ) (h : lo ≤ hi) : lo ≤ clampQ value lo hi :=
  le_min h (le_max_left lo value)

theorem clampQ_le (value lo hi : ℚ) : clampQ value lo hi ≤ hi :=
  min_le_left hi (max lo value)

theorem clampQ_idem (x lo hi : ℚ) (h : lo ≤ hi) :
    clampQ (clampQ x lo hi) lo hi = clampQ x lo hi := by
  unfold clampQ
  rw [max_eq_right (le_min h (le_max_left lo x)), min_eq_right (min_le_left hi (max lo x))]

theorem normalizeBpm_spec (value : ℚ) :
    MIN_BPM ≤ normalizeBpm value ∧ normalizeBpm value ≤ MAX_BPM ∧
    ∃ k : ℕ, normalizeBpm value = MIN_BPM + (k : ℚ) * BPM_STEP := by
  have h60 : (60 : ℚ) ≤ clampQ value 60 100 := le_clampQ value 60 100 (by norm_num)
  have h100 : clampQ value 60 100 ≤ (100 : ℚ) := clampQ_le value 60 100
  have hnorm : normalizeBpm value =
      clampQ ((jsRound (clampQ value 60 100 / 2) : ℚ) * 2) 60 100 := rfl
  set n := jsRound (clampQ value 60 100 / 2) with hn
  have h30 : (30 : ℤ) ≤ n := by
    rw [hn]
    exact Int.le_floor.mpr (by push_cast; linarith)
  have h50 : n ≤ 50 := by
    have h51 : n < 51 := by
      rw [hn]
      exact Int.floor_lt.mpr (by push_cast; linarith)
    omega
  have hlow : (60 : ℚ) ≤ (n : ℚ) * 2 := by
    have : (30 : ℚ) ≤ (n : ℚ) := by exact_mod_cast h30
    linarith
  have hhigh : (n : ℚ) * 2 ≤ 100 := by
    have : (n : ℚ) ≤ 50 := by exact_mod_cast h50
    linarith
  have hres : normalizeBpm value = (n : ℚ) * 2 := by
    rw [hnorm]
    unfold clampQ
    rw [max_eq_right hlow, min_eq_right hhigh]
  refine ⟨?_, ?_, ⟨(n - 30).toNat, ?_⟩⟩
  · rw [hres]; exact hlow
  · rw [hres]; exact hhigh
  · rw [hres]
    have h1 : ((n - 30).toNat : ℤ) = n - 30 := Int.toNat_of_nonneg (by omega)
    have h2 : (((n - 30).toNat : ℕ) : ℚ) = (n : ℚ) - 30 := by exact_mod_cast h1
    rw [h2]
    show (n : ℚ) * 2 = 60 + ((n : ℚ) - 30) * 2
    ring

theorem clampQ_of_le_of_le {x lo hi : ℚ} (h1 : lo ≤ x) (h2 : x ≤ hi) :
    clampQ x lo hi = x := by
  unfold clampQ
  rw [max_eq_right h1, min_eq_right h2]

theorem jsRound_eq {x : ℚ} {z : ℤ} (h1 : (z : ℚ) ≤ x + 1 / 2) (h2 : x + 1 / 2 < z + 1) :
    jsRound x = z := by
  unfold jsRound
  exact Int.floor_eq_iff.mpr ⟨h1, h2⟩

theorem normalizeBpm_82 : normalizeBpm (82 : ℚ) = 82 := by
  have hnorm : normalizeBpm (82 : ℚ) =
      clampQ ((jsRound (clampQ (82 : ℚ) 60 100 / 2) : ℚ) * 2) 60 100 := rfl
  have hc : clampQ (82 : ℚ) 60 100 = 82 := clampQ_of_le_of_le (by norm_num) (by norm_num)
  have hr : jsRound ((82 : ℚ) / 2) = 41 := jsRound_eq (by norm_num) (by norm_num)
  rw [hnorm, hc, hr]
  have hl : ((41 : ℤ) : ℚ) * 2 = 82 := by norm_num
  rw [hl]
  exact clampQ_of_le_of_le (by norm_num) (by norm_num)

theorem normalizeBpm_198 : normalizeBpm (198 : ℚ) = 100 := by
  have hnorm : normalizeBpm (198 : ℚ) =
      clampQ ((jsRound (clampQ (198 : ℚ) 60 100 / 2) : ℚ) * 2) 60 100 := rfl
  have hc : clampQ (198 : ℚ) 60 100 = 100 := by
    unfold clampQ
    rw [max_eq_right (by norm_num), min_eq_left (by norm_num)]
  have hr : jsRound ((100 : ℚ) / 2) = 50 := jsRound_eq (by norm_num) (by norm_num)
  rw [hnorm, hc, hr]
  have hl : ((50 : ℤ) : ℚ) * 2 = 100 := by norm_num
  rw [hl]
  exact clampQ_of_le_of_le (by norm_num) (by norm_num)

theorem normalizeBpm_neg40 : normalizeBpm (-40 : ℚ) = 60 := by
  have hnorm : normalizeBpm (-40 : ℚ) =
      clampQ ((jsRound (clampQ (-40 : ℚ) 60 100 / 2) : ℚ) * 2) 60 100 := rfl
  have hc : clampQ (-40 : ℚ) 60 100 = 60 := by
    unfold clampQ
    rw [max_eq_left (by norm_num), min_eq_right (by norm_num)]
  have hr : jsRound ((60 : ℚ) / 2) = 30 := jsRound_eq (by norm_num) (by norm_num)
  rw [hnorm, hc, hr]
  have hl : ((30 : ℤ) : ℚ) * 2 = 60 := by norm_num
  rw [hl]
  exact clampQ_of_le_of_le (by norm_num) (by norm_num)

theorem setBpm_bpm (e : EngineState) (nextBpm now : ℚ) :
    (setBpm e nextBpm now).bpm = normalizeBpm nextBpm := by
  unfold setBpm
  split
  · next heq => exact heq.symm
  · split <;> rfl

/-- Claim C2: every bpm stored by `setBpm` / `changeBpm` lies in
`[MIN_BPM, MAX_BPM]` and is `MIN_BPM` plus a whole number of `BPM_STEP`s;
and with the configured constants, `changeBpm(+2)` from 80 gives 82,
`changeBpm(+100)` from 98 clamps to 100, `changeBpm(-100)` from 60 clamps
to 60. -/
theorem bpm_clamped_and_quantized :
    (∀ (e : EngineState) (nextBpm now : ℚ),
      MIN_BPM ≤ (setBpm e nextBpm now).bpm ∧ (setBpm e nextBpm now).bpm ≤ MAX_BPM ∧
      ∃ k : ℕ, (setBpm e nextBpm now).bpm = MIN_BPM + (k : ℚ) * BPM_STEP) ∧
    (∀ (e : EngineState) (delta now : ℚ),
      MIN_BPM ≤ (changeBpm e delta now).bpm ∧ (changeBpm e delta now).bpm ≤ MAX_BPM ∧
      ∃ k : ℕ, (changeBpm e delta now).bpm = MIN_BPM + (k : ℚ) * BPM_STEP) ∧
    (changeBpm (mkEngine no72) 2 0).bpm = 82 ∧
    (changeBpm engineAt98 100 0).bpm = 100 ∧
    (changeBpm engineAt60 (-100) 0).bpm = 60 := by
  have hgen : ∀ (e : EngineState) (nextBpm now : ℚ),
      MIN_BPM ≤ (setBpm e nextBpm now).bpm ∧ (setBpm e nextBpm now).bpm ≤ MAX_BPM ∧
      ∃ k : ℕ, (setBpm e nextBpm now).bpm = MIN_BPM + (k : ℚ) * BPM_STEP := by
    intro e nextBpm now
    rw [setBpm_bpm]
    exact normalizeBpm_spec nextBpm
  refine ⟨hgen, fun e delta now => hgen e (e.bpm + delta) now, ?_, ?_, ?_⟩
  · calc (changeBpm (mkEngine no72) 2 0).bpm
        = normalizeBpm ((mkEngine no72).bpm + 2) := setBpm_bpm _ _ _
      _ = normalizeBpm 82 := by norm_num [show (mkEngine no72).bpm = 80 from rfl]
      _ = 82 := normalizeBpm_82
  · calc (changeBpm engineAt98 100 0).bpm
        = normalizeBpm (engineAt98.bpm + 100) := setBpm_bpm _ _ _
      _ = normalizeBpm 198 := by norm_num [show engineAt98.bpm = 98 from rfl]
      _ = 100 := normalizeBpm_198
  · calc (changeBpm engineAt60 (-100) 0).bpm
        = normalizeBpm (engineAt60.bpm + -100) := setBpm_bpm _ _ _
      _ = normalizeBpm (-40) := by norm_num [show engineAt60.bpm = 60 from rfl]
      _ = 60 := normalizeBpm_neg40

theorem clampInputOffset_idem (e : EngineState) (x : ℚ) :
    clampInputOffset e (clampInputOffset e x) = clampInputOffset e x := by
  unfold clampInputOffset
  split
  · simp
  · next hd => exact clampQ_idem x 0 e.durationSec (le_of_lt (lt_of_not_le hd))

theorem clampInputOffset_getCurrentInputSec (e : EngineState) (now : ℚ) :
    clampInputOffset e (getCurrentInputSec e now) = getCurrentInputSec e now := by
  unfold getCurrentInputSec
  split <;> exact clampInputOffset_idem e _

theorem getCurrentInputSec_anchored (e e' : EngineState) (now : ℚ)
    (hp : e'.playing = true)
    (hd : e'.durationSec = e.durationSec)
    (hstart : e'.startContextSec = now)
    (hoff : e'.startInputOffsetSec = clampInputOffset e (getCurrentInputSec e now)) :
    getCurrentInputSec e' now = getCurrentInputSec e now := by
  have hcl : ∀ x : ℚ, clampInputOffset e' x = clampInputOffset e x := by
    intro x
    unfold clampInputOffset
    rw [hd]
  have hl : getCurrentInputSec e' now =
      if e'.playing = true then
        clampInputOffset e'
          (e'.startInputOffsetSec + max 0 (now - e'.startContextSec) * getTempoRatio e')
      else clampInputOffset e' e'.pausedInputOffsetSec := rfl
  rw [hl, hp]
  simp only [eq_self_iff_true, if_true]
  rw [hstart, hoff, sub_self, max_self, zero_mul, add_zero, hcl, clampInputOffset_idem]
  exact clampInputOffset_getCurrentInputSec e now

/-- Claim C4: a `setBpm` issued while playing leaves the position query
unchanged when read at the same output-clock instant (here exactly, which
is within any epsilon), keeps `playing` set (the run is re-anchored, not
stopped), and updates `tempoRatio` to the newly stored bpm over
`BASE_BPM`. -/
theorem setBpm_while_playing_keeps_position (e : EngineState) (nextBpm now : ℚ)
    (h : e.playing = true) :
    getCurrentInputSec (setBpm e nextBpm now) now = getCurrentInputSec e now ∧
    (setBpm e nextBpm now).playing = true ∧
    getTempoRatio (setBpm e nextBpm now) = normalizeBpm nextBpm / BASE_BPM := by
  unfold setBpm
  split_ifs with heq
  · refine ⟨rfl, h, ?_⟩
    unfold getTempoRatio
    rw [heq]
  · exact ⟨getCurrentInputSec_anchored e _ now h rfl rfl rfl, h, rfl⟩

/-- Witness for C4: a concrete playing engine, `setBpm(90)` read at
`now = 5`. -/
theorem setBpm_while_playing_keeps_position_witness :
    enginePlayingW.playing = true ∧
    (getCurrentInputSec (setBpm enginePlayingW 90 5) 5 = getCurrentInputSec enginePlayingW 5 ∧
     (setBpm enginePlayingW 90 5).playing = true ∧
     getTempoRatio (setBpm enginePlayingW 90 5) = normalizeBpm 90 / BASE_BPM) :=
  ⟨rfl, setBpm_while_playing_keeps_position enginePlayingW 90 5 rfl⟩

/-- Counterexample for C5 as stated: with sources scheduled slightly in
the future (`startContextSec = 1`) and the clock read at `now = 0`, the
code (whose elapsed-time term is `Math.max(0, now − startContextSec)`)
reports 1 while the spec's formula without the `max` yields 0. -/
theorem position_query_spec_counterexample :
    getCurrentInputSec engineC5 0 ≠ specCurrentInputSec engineC5 0 := by
  have h1 : getCurrentInputSec engineC5 0 = 1 := by
    have hdef : getCurrentInputSec engineC5 0 =
        clampInputOffset engineC5 (1 + max 0 ((0 : ℚ) - 1) * ((80 : ℚ) / 80)) := rfl
    rw [hdef, show max (0 : ℚ) ((0 : ℚ) - 1) = 0 from max_eq_left (by norm_num),
      show (1 : ℚ) + 0 * ((80 : ℚ) / 80) = 1 by norm_num]
    have hcl : clampInputOffset engineC5 1 = clampQ 1 0 10 := by
      unfold clampInputOffset
      rw [show engineC5.durationSec = (10 : ℚ) from rfl]
      norm_num
    rw [hcl]
    exact clampQ_of_le_of_le (by norm_num) (by norm_num)
  have h2 : specCurrentInputSec engineC5 0 = 0 := by
    have hdef : specCurrentInputSec engineC5 0 =
        clampQ (1 + ((0 : ℚ) - 1) * ((80 : ℚ) / 80)) 0 10 := rfl
    rw [hdef, show (1 : ℚ) + ((0 : ℚ) - 1) * ((80 : ℚ) / 80) = 0 by norm_num]
    exact clampQ_of_le_of_le (by norm_num) (by norm_num)
  rw [h1, h2]
  norm_num

/-- Claim C5 (amended): for every state with a nonnegative duration the
position query is
`playing ? clamp(startInputOffsetSec + max(0, now − startContextSec) × tempoRatio, 0, duration)
 : clamp(pausedInputOffsetSec, 0, duration)` — the elapsed output time is
floored at 0, which the original claim omitted. -/
theorem position_query_amended (e : EngineState) (now : ℚ) (h : 0 ≤ e.durationSec) :
    getCurrentInputSec e now =
      if e.playing then
        clampQ (e.startInputOffsetSec + max 0 (now - e.startContextSec) * getTempoRatio e)
          0 e.durationSec
      else clampQ e.pausedInputOffsetSec 0 e.durationSec := by
  have hcl : ∀ x : ℚ, clampInputOffset e x = clampQ x 0 e.durationSec := by
    intro x
    unfold clampInputOffset
    split
    · next hd =>
      rw [le_antisymm hd h]
      unfold clampQ
      exact (min_eq_left (le_max_left 0 x)).symm
    · rfl
  unfold getCurrentInputSec
  split <;> rw [hcl]

/-- Witness for C5's amended claim at a concrete playing engine. -/
theorem position_query_amended_witness :
    (0 : ℚ) ≤ enginePlayingW.durationSec ∧
    getCurrentInputSec enginePlayingW 5 =
      (if enginePlayingW.playing then
        clampQ (enginePlayingW.startInputOffsetSec +
          max 0 (5 - enginePlayingW.startContextSec) * getTempoRatio enginePlayingW)
          0 enginePlayingW.durationSec
      else clampQ enginePlayingW.pausedInputOffsetSec 0 enginePlayingW.durationSec) :=
  ⟨by show (0 : ℚ) ≤ (10 : ℚ); norm_num,
   position_query_amended enginePlayingW 5 (by show (0 : ℚ) ≤ (10 : ℚ); norm_num)⟩

/-- Claim C9: a failed `init()` — whatever stage threw — rolls the engine
back to the uninitialized state: flags cleared, no context, no nodes, no
buffers, no sources, position and bar state reset; and a subsequent
`init()` is not short-circuited and completes from scratch. -/
theorem failed_init_rolls_back (e : EngineState) (ctxCreated gainNodesCreated mixApplied : Bool)
    (h1 : e.initialized = false) (h2 : e.loading = false) :
    (init e (.failure ctxCreated gainNodesCreated mixApplied)).initialized = false ∧
    (init e (.failure ctxCreated gainNodesCreated mixApplied)).loading = false ∧
    (init e (.failure ctxCreated gainNodesCreated mixApplied)).playing = false ∧
    (init e (.failure ctxCreated gainNodesCreated mixApplied)).hasAudioCtx = false ∧
    (init e (.failure ctxCreated gainNodesCreated mixApplied)).trackGainNodes = [] ∧
    (init e (.failure ctxCreated gainNodesCreated mixApplied)).buffers = [] ∧
    (init e (.failure ctxCreated gainNodesCreated mixApplied)).activeSources = [] ∧
    (init e (.failure ctxCreated gainNodesCreated mixApplied)).durationSec = 0 ∧
    (init e (.failure ctxCreated gainNodesCreated mixApplied)).startContextSec = 0 ∧
    (init e (.failure ctxCreated gainNodesCreated mixApplied)).startInputOffsetSec = 0 ∧
    (init e (.failure ctxCreated gainNodesCreated mixApplied)).pausedInputOffsetSec = 0 ∧
    (init e (.failure ctxCreated gainNodesCreated mixApplied)).barStartSec = [0] ∧
    (init e (.failure ctxCreated gainNodesCreated mixApplied)).selectedStartBar = 0 ∧
    (∀ loadedBuffers,
      (init (init e (.failure ctxCreated gainNodesCreated mixApplied))
        (.success loadedBuffers)).initialized = true) := by
  unfold init
  rw [h1, h2]
  simp [disposeNodes]

/-- Witness for C9: a failure after every stage of a fresh default
engine. -/
theorem failed_init_rolls_back_witness :
    ((mkEngine no72).initialized = false ∧ (mkEngine no72).loading = false) ∧
    ((init (mkEngine no72) (.failure true true true)).initialized = false ∧
     (init (mkEngine no72) (.failure true true true)).barStartSec = [0] ∧
     (∀ loadedBuffers,
       (init (init (mkEngine no72) (.failure true true true))
         (.success loadedBuffers)).initialized = true)) := by
  have h := failed_init_rolls_back (mkEngine no72) true true true rfl rfl
  exact ⟨⟨rfl, rfl⟩, h.1, h.2.2.2.2.2.2.2.2.2.2.2.1, h.2.2.2.2.2.2.2.2.2.2.2.2.2⟩

theorem getLast?_eq_getLastD (l : List ℚ) (h : l ≠ []) :
    l.getLast? = some (l.getLastD 0) := by
  rw [List.getLastD_eq_getLast?]
  cases hl : l.getLast? with
  | none => exact absurd (List.getLast?_eq_none_iff.mp hl) h
  | some x => rfl

theorem chain'_append_singleton {l : List ℚ} {v : ℚ} (hc : l.Chain' (· < ·))
    (hlast : ∀ x, l.getLast? = some x → x < v) : (l ++ [v]).Chain' (· < ·) := by
  rw [List.chain'_append]
  refine ⟨hc, List.chain'_singleton v, ?_⟩
  intro x hx y hy
  have hx' : l.getLast? = some x := hx
  have hy' : v = y := by simpa using hy
  rw [← hy']
  exact hlast x hx'

theorem head?_append_of_ne_nil (l : List ℚ) (x : ℚ) (h : l ≠ []) :
    (l ++ [x]).head? = l.head? := by
  cases l with
  | nil => exact absurd rfl h
  | cons a t => simp

theorem fallbackLoop_chain (e : EngineState) (durationSec : ℚ) :
    ∀ (remaining bar : ℕ) (cursorSec : ℚ) (bars : List ℚ), bars.Chain' (· < ·) →
    (fallbackLoop e durationSec remaining bar cursorSec bars).Chain' (· < ·) := by
  intro remaining
  induction remaining with
  | zero => intro bar cursorSec bars h; exact h
  | succ n ih =>
    intro bar cursorSec bars h
    unfold fallbackLoop
    apply ih
    split_ifs with he hg
    · rw [List.isEmpty_iff.mp he]
      exact List.chain'_singleton _
    · refine chain'_append_singleton h ?_
      intro x hx
      have hne : bars ≠ [] := by
        intro hnil
        rw [hnil] at he
        exact he rfl
      rw [getLast?_eq_getLastD bars hne] at hx
      have hx' : x = bars.getLastD 0 := (Option.some.inj hx).symm
      rw [hx']
      linarith
    · exact h

theorem fallbackLoop_head (e : EngineState) (durationSec : ℚ) :
    ∀ (remaining bar : ℕ) (cursorSec : ℚ) (bars : List ℚ), bars ≠ [] →
    (fallbackLoop e durationSec remaining bar cursorSec bars).head? = bars.head? := by
  intro remaining
  induction remaining with
  | zero => intro bar cursorSec bars _; rfl
  | succ n ih =>
    intro bar cursorSec bars hne
    unfold fallbackLoop
    split_ifs with he hg
    · exact absurd (List.isEmpty_iff.mp he) hne
    · rw [ih _ _ _ (by simp)]
      exact head?_append_of_ne_nil bars _ hne
    · exact ih _ _ _ hne

theorem fallbackLoop_len (e : EngineState) (durationSec : ℚ) :
    ∀ (remaining bar : ℕ) (cursorSec : ℚ) (bars : List ℚ),
    (fallbackLoop e durationSec remaining bar cursorSec bars).length ≤
      bars.length + remaining := by
  intro remaining
  induction remaining with
  | zero => intro bar cursorSec bars; simp [fallbackLoop]
  | succ n ih =>
    intro bar cursorSec bars
    unfold fallbackLoop
    split_ifs with he hg
    · calc (fallbackLoop e durationSec n (bar + 1) _ _).length
          ≤ (bars ++ [min durationSec cursorSec]).length + n := ih _ _ _
        _ ≤ bars.length + (n + 1) := by simp; omega
    · calc (fallbackLoop e durationSec n (bar + 1) _ _).length
          ≤ (bars ++ [min durationSec cursorSec]).length + n := ih _ _ _
        _ ≤ bars.length + (n + 1) := by simp; omega
    · calc (fallbackLoop e durationSec n (bar + 1) _ _).length
          ≤ bars.length + n := ih _ _ _
        _ ≤ bars.length + (n + 1) := by omega

theorem buildFallbackBarStarts_chain (e : EngineState) (durationSec : ℚ)
    (targetBarCount : ℕ) :
    (buildFallbackBarStarts e durationSec targetBarCount).Chain' (· < ·) := by
  unfold buildFallbackBarStarts
  split_ifs with h
  · exact fallbackLoop_chain e durationSec targetBarCount 0 0 [] List.chain'_nil
  · exact List.chain'_singleton 0

theorem buildFallbackBarStarts_head (e : EngineState) (durationSec : ℚ)
    (targetBarCount : ℕ) (hdur : 0 ≤ durationSec) (ht : 1 ≤ targetBarCount) :
    (buildFallbackBarStarts e durationSec targetBarCount).head? = some 0 := by
  obtain ⟨m, rfl⟩ : ∃ m, targetBarCount = m + 1 := ⟨targetBarCount - 1, by omega⟩
  have hmin : min durationSec (0 : ℚ) = 0 := min_eq_right hdur
  have h1 : fallbackLoop e durationSec (m + 1) 0 0 [] =
      fallbackLoop e durationSec m 1
        (0 + getExpectedBarDurationSec e 0 (getBarBeatCount e 0) (60 / BASE_BPM))
        [min durationSec 0] := rfl
  rw [hmin] at h1
  have hhead : (fallbackLoop e durationSec (m + 1) 0 0 []).head? = some 0 := by
    rw [h1, fallbackLoop_head e durationSec m 1 _ [0] (by simp)]
    rfl
  have hlen : 0 < (fallbackLoop e durationSec (m + 1) 0 0 []).length := by
    cases hb : fallbackLoop e durationSec (m + 1) 0 0 [] with
    | nil => rw [hb] at hhead; simp at hhead
    | cons a t => simp
  unfold buildFallbackBarStarts
  rw [if_pos hlen]
  exact hhead

theorem buildFallbackBarStarts_len (e : EngineState) (durationSec : ℚ)
    (targetBarCount : ℕ) (ht : 1 ≤ targetBarCount) :
    (buildFallbackBarStarts e durationSec targetBarCount).length ≤ targetBarCount := by
  unfold buildFallbackBarStarts
  split_ifs with h
  · simpa using fallbackLoop_len e durationSec targetBarCount 0 0 []
  · simpa using ht

theorem dedupeBars_chain (l : List ℚ) : ∀ acc : List ℚ, acc.Chain' (· < ·) →
    (dedupeBars acc l).Chain' (· < ·) := by
  induction l with
  | nil => intro acc h; exact h
  | cons v rest ih =>
    intro acc h
    unfold dedupeBars
    split_ifs with he hg
    · refine ih _ ?_
      rw [List.isEmpty_iff.mp he]
      exact List.chain'_singleton v
    · refine ih _ (chain'_append_singleton h ?_)
      intro x hx
      have hne : acc ≠ [] := by
        intro hnil
        rw [hnil] at he
        exact he rfl
      rw [getLast?_eq_getLastD acc hne] at hx
      have hx' : x = acc.getLastD 0 := (Option.some.inj hx).symm
      rw [hx']
      linarith
    · exact ih acc h

theorem dedupeBars_head (l : List ℚ) : ∀ acc : List ℚ, acc ≠ [] →
    (dedupeBars acc l).head? = acc.head? := by
  induction l with
  | nil => intro acc _; rfl
  | cons v rest ih =>
    intro acc hne
    unfold dedupeBars
    split_ifs with he hg
    · exact absurd (List.isEmpty_iff.mp he) hne
    · rw [ih _ (by simp)]
      exact head?_append_of_ne_nil acc v hne
    · exact ih acc hne

theorem extendBars_chain (durationSec fallbackBarSec : ℚ) (targetBarCount : ℕ) :
    ∀ (fuel : ℕ) (acc : List ℚ), acc.Chain' (· < ·) →
    (extendBars durationSec fallbackBarSec targetBarCount fuel acc).Chain' (· < ·) := by
  intro fuel
  induction fuel with
  | zero => intro acc h; exact h
  | succ n ih =>
    intro acc h
    unfold extendBars
    split_ifs with hlen hle
    · exact h
    · refine ih _ (chain'_append_singleton h ?_)
      intro x hx
      by_cases hne : acc = []
      · rw [hne] at hx; simp at hx
      · rw [getLast?_eq_getLastD acc hne] at hx
        have hx' : x = acc.getLastD 0 := (Option.some.inj hx).symm
        rw [hx']
        push_neg at hle
        linarith
    · exact h

theorem extendBars_head (durationSec fallbackBarSec : ℚ) (targetBarCount : ℕ) :
    ∀ (fuel : ℕ) (acc : List ℚ), acc ≠ [] →
    (extendBars durationSec fallbackBarSec targetBarCount fuel acc).head? = acc.head? := by
  intro fuel
  induction fuel with
  | zero => intro acc _; rfl
  | succ n ih =>
    intro acc hne
    unfold extendBars
    split_ifs with hlen hle
    · rfl
    · rw [ih _ (by simp)]
      exact head?_append_of_ne_nil acc _ hne
    · rfl

theorem head?_take_pos (l : List ℚ) (n : ℕ) (h : 1 ≤ n) :
    (l.take n).head? = l.head? := by
  cases l with
  | nil => simp
  | cons a t =>
    obtain ⟨m, rfl⟩ : ∃ m, n = m + 1 := ⟨n - 1, by omega⟩
    simp [List.take]

theorem backtrackStarts_size (prevTable : Array (Array ℤ)) :
    ∀ (bar : ℕ) (acc out : Array ℕ), backtrackStarts prevTable bar acc = some out →
    out.size = acc.size := by
  intro bar
  induction bar with
  | zero =>
    intro acc out h
    have : acc = out := Option.some.inj h
    rw [this]
  | succ b ih =>
    intro acc out h
    unfold backtrackStarts at h
    split_ifs at h
    rw [ih _ _ h]
    simp

theorem deriveFinish_spec (e : EngineState) (beatTimes : List ℚ)
    (durationSec medianBeatSec : ℚ) (targetBarCount fittedBarCount : ℕ)
    (tables : Array (Array ℚ) × Array (Array ℤ))
    (htarget : 1 ≤ targetBarCount) (hfit : 1 ≤ fittedBarCount) (hdur : 0 ≤ durationSec) :
    (deriveFinish e beatTimes durationSec medianBeatSec targetBarCount fittedBarCount
      tables).head? = some 0 ∧
    (deriveFinish e beatTimes durationSec medianBeatSec targetBarCount fittedBarCount
      tables).Chain' (· < ·) ∧
    (deriveFinish e beatTimes durationSec medianBeatSec targetBarCount fittedBarCount
      tables).length ≤ targetBarCount := by
  unfold deriveFinish
  split_ifs with hneg
  · exact ⟨buildFallbackBarStarts_head e durationSec targetBarCount hdur htarget,
      buildFallbackBarStarts_chain e durationSec targetBarCount,
      buildFallbackBarStarts_len e durationSec targetBarCount htarget⟩
  · cases hbt : backtrackStarts tables.2 (fittedBarCount - 1)
        ((Array.mkArray fittedBarCount 0).setD (fittedBarCount - 1)
          (chooseBestEnd tables.1 (fittedBarCount - 1) beatTimes.length).toNat) with
    | none =>
      exact ⟨buildFallbackBarStarts_head e durationSec targetBarCount hdur htarget,
        buildFallbackBarStarts_chain e durationSec targetBarCount,
        buildFallbackBarStarts_len e durationSec targetBarCount htarget⟩
    | some beatIndexStarts =>
      have hsize : beatIndexStarts.size = fittedBarCount := by
        have h := backtrackStarts_size _ _ _ _ hbt
        simpa using h
      obtain ⟨rest, hrest⟩ :
          ∃ rest, setHead0 (beatIndexStarts.toList.map
            (fun index => beatTimes.getD index 0)) = 0 :: rest := by
        cases hml : beatIndexStarts.toList.map (fun index => beatTimes.getD index 0) with
        | nil =>
          have htl : beatIndexStarts.toList = [] := List.map_eq_nil_iff.mp hml
          have hz : beatIndexStarts.size = 0 := by
            rw [← Array.length_toList, htl]
            rfl
          omega
        | cons a t => exact ⟨t, rfl⟩
      dsimp only
      rw [hrest]
      have hded : dedupeBars [] (0 :: rest) = dedupeBars [0] rest := rfl
      have hdhead : (dedupeBars [] (0 :: rest)).head? = some 0 := by
        rw [hded, dedupeBars_head rest [0] (by simp)]
        rfl
      have hdne : dedupeBars [] (0 :: rest) ≠ [] := by
        intro hnil
        rw [hnil] at hdhead
        simp at hdhead
      have hdchain : (dedupeBars [] (0 :: rest)).Chain' (· < ·) := by
        rw [hded]
        exact dedupeBars_chain rest [0] (List.chain'_singleton 0)
      refine ⟨?_, ?_, ?_⟩
      · rw [head?_take_pos _ _ htarget,
          extendBars_head durationSec (medianBeatSec * 4) targetBarCount targetBarCount _ hdne]
        exact hdhead
      · exact (extendBars_chain durationSec (medianBeatSec * 4) targetBarCount targetBarCount _
          hdchain).take targetBarCount
      · calc ((extendBars durationSec (medianBeatSec * 4) targetBarCount targetBarCount
            (dedupeBars [] (0 :: rest))).take targetBarCount).length
            ≤ targetBarCount := by
              rw [List.length_take]
              exact min_le_left _ _

/-- Claim C3: both bar-table builders — the beat-derived table and the
uniform-grid fallback — produce a strictly increasing table whose first
entry is exactly 0 and whose length is at most the configured target bar
count. -/
theorem bar_tables_monotone_from_zero (e : EngineState) (beats : List BeatPoint)
    (durationSec : ℚ) (targetBarCount : ℕ)
    (htarget : 1 ≤ targetBarCount) (hdur : 0 ≤ durationSec) :
    ((deriveBarStartsFromBeats e beats durationSec targetBarCount).head? = some 0 ∧
     (deriveBarStartsFromBeats e beats durationSec targetBarCount).Chain' (· < ·) ∧
     (deriveBarStartsFromBeats e beats durationSec targetBarCount).length ≤ targetBarCount) ∧
    ((buildFallbackBarStarts e durationSec targetBarCount).head? = some 0 ∧
     (buildFallbackBarStarts e durationSec targetBarCount).Chain' (· < ·) ∧
     (buildFallbackBarStarts e durationSec targetBarCount).length ≤ targetBarCount) := by
  constructor
  · have h1 : (1 : ℤ) ≤ (targetBarCount : ℤ) := by exact_mod_cast htarget
    have hminz : (1 : ℤ) ≤ min (targetBarCount : ℤ)
        (max 2 ((((beats.map (fun beat => beat.timeSec)).length : ℤ) - 1).fdiv 2 + 1)) := by
      refine le_min h1 ?_
      have h2 := le_max_left (2 : ℤ)
        ((((beats.map (fun beat => beat.timeSec)).length : ℤ) - 1).fdiv 2 + 1)
      omega
    have hfit : 1 ≤ (min (targetBarCount : ℤ)
        (max 2 ((((beats.map (fun beat => beat.timeSec)).length : ℤ) - 1).fdiv 2 + 1))).toNat := by
      omega
    unfold deriveBarStartsFromBeats
    exact deriveFinish_spec e _ durationSec _ targetBarCount _ _ htarget hfit hdur
  · exact ⟨buildFallbackBarStarts_head e durationSec targetBarCount hdur htarget,
      buildFallbackBarStarts_chain e durationSec targetBarCount,
      buildFallbackBarStarts_len e durationSec targetBarCount htarget⟩

/-- Witness for C3 at a concrete engine, beat list, duration and target
bar count. -/
theorem bar_tables_monotone_from_zero_witness :
    (1 ≤ 3 ∧ (0 : ℚ) ≤ 10) ∧
    (((deriveBarStartsFromBeats (mkEngine no72) [] 10 3).head? = some 0 ∧
      (deriveBarStartsFromBeats (mkEngine no72) [] 10 3).Chain' (· < ·) ∧
      (deriveBarStartsFromBeats (mkEngine no72) [] 10 3).length ≤ 3) ∧
     ((buildFallbackBarStarts (mkEngine no72) 10 3).head? = some 0 ∧
      (buildFallbackBarStarts (mkEngine no72) 10 3).Chain' (· < ·) ∧
      (buildFallbackBarStarts (mkEngine no72) 10 3).length ≤ 3)) :=
  ⟨⟨by omega, by norm_num⟩,
   bar_tables_monotone_from_zero (mkEngine no72) [] 10 3 (by omega) (by norm_num)⟩

theorem getLastD_range_map (f : ℕ → ℚ) (bar : ℕ) (h : 1 ≤ bar) :
    ((List.range bar).map f).getLastD 0 = f (bar - 1) := by
  obtain ⟨m, rfl⟩ : ∃ m, bar = m + 1 := ⟨bar - 1, by omega⟩
  rw [List.range_succ, List.map_append]
  have h := List.getLastD_concat 0 (f m) ((List.range m).map f)
  simp only [Nat.add_sub_cancel]
  exact h

theorem fallbackLoop_exact (e : EngineState) (durationSec : ℚ) (targetBarCount : ℕ)
    (hcap : ∀ k, k < targetBarCount → cumExpected e k ≤ durationSec)
    (hgap : ∀ k, k < targetBarCount → 1 / 25 < fallbackExpected e k) :
    ∀ (remaining bar : ℕ), bar + remaining = targetBarCount →
    fallbackLoop e durationSec remaining bar (cumExpected e bar)
      ((List.range bar).map (cumExpected e)) =
    (List.range targetBarCount).map (cumExpected e) := by
  intro remaining
  induction remaining with
  | zero =>
    intro bar hbar
    have hb : bar = targetBarCount := by omega
    rw [hb]
    rfl
  | succ n ih =>
    intro bar hbar
    have hbarlt : bar < targetBarCount := by omega
    have hsec : min durationSec (cumExpected e bar) = cumExpected e bar :=
      min_eq_right (hcap bar hbarlt)
    unfold fallbackLoop
    rw [hsec]
    by_cases hb : bar = 0
    · subst hb
      have hred : (if (((List.range 0).map (cumExpected e)).isEmpty = true) then
            ((List.range 0).map (cumExpected e)) ++ [cumExpected e 0]
          else if 1 / 25 < cumExpected e 0 - ((List.range 0).map (cumExpected e)).getLastD 0 then
            ((List.range 0).map (cumExpected e)) ++ [cumExpected e 0]
          else ((List.range 0).map (cumExpected e))) = (List.range 1).map (cumExpected e) := rfl
      rw [hred]
      exact ih 1 (by omega)
    · have hm : 1 ≤ bar := by omega
      have hempty : ¬ (((List.range bar).map (cumExpected e)).isEmpty = true) := by
        simpa [List.map_eq_nil_iff, List.range_eq_nil] using hb
      rw [if_neg hempty, getLastD_range_map (cumExpected e) bar hm]
      have hdiff : cumExpected e bar - cumExpected e (bar - 1) = fallbackExpected e (bar - 1) := by
        obtain ⟨m, rfl⟩ : ∃ m, bar = m + 1 := ⟨bar - 1, by omega⟩
        show cumExpected e m + fallbackExpected e m - cumExpected e m = fallbackExpected e m
        ring
      have hcond : 1 / 25 < cumExpected e bar - cumExpected e (bar - 1) := by
        rw [hdiff]
        exact hgap (bar - 1) (by omega)
      rw [if_pos hcond]
      rw [show (List.range bar).map (cumExpected e) ++ [cumExpected e bar] =
          (List.range (bar + 1)).map (cumExpected e) by
        rw [List.range_succ, List.map_append]
        rfl]
      exact ih (bar + 1) (by omega)

theorem buildFallbackBarStarts_exact (e : EngineState) (durationSec : ℚ)
    (targetBarCount : ℕ) (ht : 1 ≤ targetBarCount)
    (hcap : ∀ k, k < targetBarCount → cumExpected e k ≤ durationSec)
    (hgap : ∀ k, k < targetBarCount → 1 / 25 < fallbackExpected e k) :
    buildFallbackBarStarts e durationSec targetBarCount =
      (List.range targetBarCount).map (cumExpected e) := by
  have hloop : fallbackLoop e durationSec targetBarCount 0 0 [] =
      (List.range targetBarCount).map (cumExpected e) :=
    fallbackLoop_exact e durationSec targetBarCount hcap hgap targetBarCount 0 (by omega)
  unfold buildFallbackBarStarts
  rw [hloop, if_pos (by simpa using ht)]

/-- Claim C7: with fewer detected beats than `max(24, 2 × targetBarCount)`,
bar-map construction substitutes the uniform-grid fallback (it is a total
function — nothing fails and no error is surfaced), and when the
accumulated expected durations fit in the click duration and each bar's
expected duration exceeds the 0.04 s de-duplication gap, that fallback is
exactly `targetBarCount` strictly increasing bar starts, the k-th being
the sum of the expected per-bar durations of bars `0..k-1` accumulated
from 0. -/
theorem degenerate_beats_fallback (e : EngineState) (clickBuffer : DecodedBuffer)
    (hclick : e.buffers.lookup "click" = some clickBuffer)
    (htarget : 1 ≤ e.displayScoreBars.length)
    (hfew : clickBuffer.beats.length < max 24 (e.displayScoreBars.length * 2))
    (hcap : ∀ k, k < e.displayScoreBars.length → cumExpected e k ≤ clickBuffer.durationSec)
    (hgap : ∀ k, k < e.displayScoreBars.length → 1 / 25 < fallbackExpected e k) :
    (buildBarMapFromClick e).barStartSec =
      buildFallbackBarStarts e clickBuffer.durationSec e.displayScoreBars.length ∧
    (buildBarMapFromClick e).barStartSec =
      (List.range e.displayScoreBars.length).map (cumExpected e) ∧
    (buildBarMapFromClick e).barStartSec.length = e.displayScoreBars.length ∧
    (buildBarMapFromClick e).barStartSec.Chain' (· < ·) := by
  have hmap : (buildBarMapFromClick e).barStartSec =
      buildFallbackBarStarts e clickBuffer.durationSec e.displayScoreBars.length := by
    unfold buildBarMapFromClick
    rw [hclick]
    dsimp only
    rw [if_pos (by simpa using hfew)]
  have hexact := buildFallbackBarStarts_exact e clickBuffer.durationSec
    e.displayScoreBars.length htarget hcap hgap
  refine ⟨hmap, ?_, ?_, ?_⟩
  · rw [hmap, hexact]
  · rw [hmap, hexact]
    simp
  · rw [hmap]
    exact buildFallbackBarStarts_chain e clickBuffer.durationSec e.displayScoreBars.length

/-- Witness for C7: the three-bar engine whose click buffer yielded no
beats at all. -/
theorem degenerate_beats_fallback_witness :
    (engineC7.buffers.lookup "click" = some clickC7 ∧
     1 ≤ engineC7.displayScoreBars.length ∧
     clickC7.beats.length < max 24 (engineC7.displayScoreBars.length * 2) ∧
     (∀ k, k < engineC7.displayScoreBars.length →
       cumExpected engineC7 k ≤ clickC7.durationSec) ∧
     (∀ k, k < engineC7.displayScoreBars.length → 1 / 25 < fallbackExpected engineC7 k)) ∧
    ((buildBarMapFromClick engineC7).barStartSec =
      buildFallbackBarStarts engineC7 clickC7.durationSec engineC7.displayScoreBars.length ∧
     (buildBarMapFromClick engineC7).barStartSec =
      (List.range engineC7.displayScoreBars.length).map (cumExpected engineC7) ∧
     (buildBarMapFromClick engineC7).barStartSec.length = engineC7.displayScoreBars.length ∧
     (buildBarMapFromClick engineC7).barStartSec.Chain' (· < ·)) := by
  have hfe : ∀ j : ℕ, fallbackExpected engineC7 j = 3 := by
    intro j
    unfold fallbackExpected getExpectedBarDurationSec getBarBeatCount
    rw [show engineC7.tempoHintByBarIndex = [] from rfl,
      show engineC7.twoBeatBarIndexes = [] from rfl]
    simp [BASE_BPM]
    norm_num
  have hcap : ∀ k, k < engineC7.displayScoreBars.length →
      cumExpected engineC7 k ≤ clickC7.durationSec := by
    intro k hk
    rw [show engineC7.displayScoreBars.length = 3 from rfl] at hk
    rw [show clickC7.durationSec = (10 : ℚ) from rfl]
    interval_cases k <;> simp [cumExpected, hfe] <;> norm_num
  have hgap : ∀ k, k < engineC7.displayScoreBars.length →
      1 / 25 < fallbackExpected engineC7 k := by
    intro k hk
    rw [hfe k]
    norm_num
  refine ⟨⟨rfl, by decide, by decide, hcap, hgap⟩, ?_⟩
  exact degenerate_beats_fallback engineC7 clickC7 rfl (by decide) (by decide) hcap hgap

theorem bsMid_ge {low high : ℤ} (h : low ≤ high) : low ≤ bsMid low high := by
  unfold bsMid
  refine Int.le_floor.mpr ?_
  have hq : ((low : ℚ)) ≤ (high : ℚ) := by exact_mod_cast h
  linarith

theorem bsMid_le {low high : ℤ} (h : low ≤ high) : bsMid low high ≤ high := by
  unfold bsMid
  have hq : ((low : ℚ)) ≤ (high : ℚ) := by exact_mod_cast h
  have hc : ((low : ℚ) + (high : ℚ)) / 2 ≤ ((high : ℤ) : ℚ) := by
    linarith
  calc ⌊((low : ℚ) + (high : ℚ)) / 2⌋ ≤ ⌊((high : ℤ) : ℚ)⌋ := Int.floor_mono hc
    _ = high := Int.floor_intCast high

theorem pairwise_getD_lt (table : List ℚ) (hsort : table.Pairwise (· < ·))
    {i j : ℕ} (hij : i < j) (hj : j < table.length) :
    table.getD i 0 < table.getD j 0 := by
  have hi : i < table.length := lt_trans hij hj
  rw [List.getD_eq_getElem?_getD, List.getD_eq_getElem?_getD,
    List.getElem?_eq_getElem hi, List.getElem?_eq_getElem hj]
  simp only [Option.getD_some]
  exact List.pairwise_iff_getElem.mp hsort i j hi hj hij

theorem bsLoop_stop {table : List ℚ} {x : ℚ} {low high : ℤ} (h : ¬ low ≤ high) :
    bsLoop table x low high = high := by
  rw [bsLoop]
  exact if_neg h

theorem bsLoop_go_right {table : List ℚ} {x : ℚ} {low high : ℤ} (h : low ≤ high)
    (hv : table.getD (bsMid low high).toNat 0 ≤ x) :
    bsLoop table x low high = bsLoop table x (bsMid low high + 1) high := by
  rw [bsLoop, if_pos h, if_pos hv]

theorem bsLoop_go_left {table : List ℚ} {x : ℚ} {low high : ℤ} (h : low ≤ high)
    (hv : ¬ table.getD (bsMid low high).toNat 0 ≤ x) :
    bsLoop table x low high = bsLoop table x low (bsMid low high - 1) := by
  rw [bsLoop, if_pos h, if_neg hv]

theorem bsLoop_spec (table : List ℚ) (x : ℚ) (hsort : table.Pairwise (· < ·)) :
    ∀ (n : ℕ) (low high : ℤ), (high + 1 - low).toNat ≤ n →
    0 ≤ low → low ≤ high + 1 → high < (table.length : ℤ) →
    (∀ j : ℕ, (j : ℤ) < low → table.getD j 0 ≤ x) →
    (∀ j : ℕ, (high : ℤ) < (j : ℤ) → j < table.length → x < table.getD j 0) →
    low - 1 ≤ bsLoop table x low high ∧ bsLoop table x low high ≤ high ∧
    (∀ j : ℕ, (j : ℤ) ≤ bsLoop table x low high → table.getD j 0 ≤ x) ∧
    (∀ j : ℕ, bsLoop table x low high < (j : ℤ) → j < table.length →
      x < table.getD j 0) := by
  intro n
  induction n with
  | zero =>
    intro low high hfuel h0 hlh hhl hlo hhi
    have hstop : ¬ low ≤ high := by omega
    rw [bsLoop_stop hstop]
    refine ⟨by omega, le_refl high, ?_, hhi⟩
    intro j hj
    exact hlo j (by omega)
  | succ n ih =>
    intro low high hfuel h0 hlh hhl hlo hhi
    by_cases hcont : low ≤ high
    case neg =>
      rw [bsLoop_stop hcont]
      refine ⟨by omega, le_refl high, ?_, hhi⟩
      intro j hj
      exact hlo j (by omega)
    case pos =>
      have hm1 : low ≤ bsMid low high := bsMid_ge hcont
      have hm2 : bsMid low high ≤ high := bsMid_le hcont
      have hmn : ((bsMid low high).toNat : ℤ) = bsMid low high :=
        Int.toNat_of_nonneg (by omega)
      have hmlen : (bsMid low high).toNat < table.length := by omega
      by_cases hv : table.getD (bsMid low high).toNat 0 ≤ x
      · rw [bsLoop_go_right hcont hv]
        have hlo' : ∀ j : ℕ, (j : ℤ) < bsMid low high + 1 → table.getD j 0 ≤ x := by
          intro j hj
          rcases lt_or_ge (j : ℤ) low with hl | hg
          · exact hlo j hl
          · by_cases hje : j = (bsMid low high).toNat
            · rw [hje]
              exact hv
            · have hjlt : j < (bsMid low high).toNat := by omega
              exact le_of_lt (lt_of_lt_of_le (pairwise_getD_lt table hsort hjlt hmlen) hv)
        obtain ⟨hA, hB, hC, hD⟩ := ih (bsMid low high + 1) high (by omega) (by omega)
          (by omega) hhl hlo' hhi
        exact ⟨by omega, hB, hC, hD⟩
      · rw [bsLoop_go_left hcont hv]
        have hx : x < table.getD (bsMid low high).toNat 0 := lt_of_not_le hv
        have hhi' : ∀ j : ℕ, (bsMid low high - 1 : ℤ) < (j : ℤ) → j < table.length →
            x < table.getD j 0 := by
          intro j hj hjlen
          by_cases hje : j = (bsMid low high).toNat
          · rw [hje]
            exact hx
          · have hjgt : (bsMid low high).toNat < j := by omega
            exact lt_trans hx (pairwise_getD_lt table hsort hjgt hjlen)
        obtain ⟨hA, hB, hC, hD⟩ := ih low (bsMid low high - 1) (by omega) h0
          (by omega) (by omega) hlo hhi'
        exact ⟨hA, by omega, hC, hD⟩

/-- Claim C6: for every index `i` of the bar-start table, the
bar-from-seconds lookup applied to `barStartSec[i]` returns `i` — the
binary search returns the greatest index whose start time is `≤` the
queried position (lower edge inclusive), and under the engine's table
invariants (strictly increasing table no longer than the display-bar
list) the trailing `clampBarNumber` is the identity on it. -/
theorem lookup_bar_start_returns_index (e : EngineState) (i : ℕ)
    (hsort : e.barStartSec.Pairwise (· < ·))
    (hlen : e.barStartSec.length ≤ e.displayScoreBars.length)
    (hi : i < e.barStartSec.length) :
    findBarByInputSec e (e.barStartSec.getD i 0) = i := by
  unfold findBarByInputSec
  by_cases hsmall : e.barStartSec.length ≤ 1
  · rw [if_pos hsmall]
    omega
  · rw [if_neg hsmall]
    have hlen2 : 2 ≤ e.barStartSec.length := by omega
    obtain ⟨hA, hB, hC, hD⟩ := bsLoop_spec e.barStartSec (e.barStartSec.getD i 0) hsort
      e.barStartSec.length 0 ((e.barStartSec.length : ℤ) - 1)
      (by omega) (by omega) (by omega) (by omega)
      (fun j hj => absurd hj (by omega))
      (fun j hj hjlen => absurd hj (by omega))
    have hri : bsLoop e.barStartSec (e.barStartSec.getD i 0) 0
        ((e.barStartSec.length : ℤ) - 1) = (i : ℤ) := by
      by_contra hne
      rcases lt_or_gt_of_ne hne with hlt | hgt
      · exact absurd (hD i (by omega) hi) (lt_irrefl _)
      · have hrlen : (bsLoop e.barStartSec (e.barStartSec.getD i 0) 0
            ((e.barStartSec.length : ℤ) - 1)).toNat < e.barStartSec.length := by omega
        have ht := hC (bsLoop e.barStartSec (e.barStartSec.getD i 0) 0
            ((e.barStartSec.length : ℤ) - 1)).toNat (by omega)
        have hlt2 := pairwise_getD_lt e.barStartSec hsort
          (show i < (bsLoop e.barStartSec (e.barStartSec.getD i 0) 0
            ((e.barStartSec.length : ℤ) - 1)).toNat by omega) hrlen
        linarith
    unfold clampBarNumberZ clampZ getMaxBar clampZ
    rw [hri]
    have hd : 2 ≤ e.displayScoreBars.length := by omega
    omega

/-- Witness for C6 on a concrete three-entry table with four display
bars, at index 1. -/
theorem lookup_bar_start_returns_index_witness :
    (engineC6.barStartSec.Pairwise (· < ·) ∧
     engineC6.barStartSec.length ≤ engineC6.displayScoreBars.length ∧
     1 < engineC6.barStartSec.length) ∧
    findBarByInputSec engineC6 (engineC6.barStartSec.getD 1 0) = 1 := by
  have hsort : engineC6.barStartSec.Pairwise (· < ·) := by
    rw [show engineC6.barStartSec = [0, 2, 5] from rfl]
    norm_num
  refine ⟨⟨hsort, by decide, by decide⟩, ?_⟩
  exact lookup_bar_start_returns_index engineC6 1 hsort (by decide) (by decide)

/-- Claim C8: in the `with72_rit` pattern, display bar 72 maps to pattern
index 72, is a two-beat bar, and — with its 60 bpm tempo hint — its
expected duration is exactly `(60/60) × 2 = 2.0` seconds regardless of the
fallback beat length, not the 4-beat default; in general the expected
duration of a bar is `(60/hintBpm) × beatCount` when a (positive) tempo
hint is present and `fallbackBeatSec × beatCount` otherwise. -/
theorem expected_bar_duration_hint :
    getBarBeatCount engineWith72Rit 72 = 2 ∧
    (∀ fallbackBeatSec : ℚ,
      getExpectedBarDurationSec engineWith72Rit 72 (getBarBeatCount engineWith72Rit 72)
        fallbackBeatSec = 2) ∧
    (∀ (e : EngineState) (barIndex beatCount : ℕ) (fallbackBeatSec hintBpm : ℚ),
      e.tempoHintByBarIndex.lookup barIndex = some hintBpm → 0 < hintBpm →
      getExpectedBarDurationSec e barIndex beatCount fallbackBeatSec =
        (60 / hintBpm) * (beatCount : ℚ)) ∧
    (∀ (e : EngineState) (barIndex beatCount : ℕ) (fallbackBeatSec : ℚ),
      e.tempoHintByBarIndex.lookup barIndex = none →
      getExpectedBarDurationSec e barIndex beatCount fallbackBeatSec =
        fallbackBeatSec * (beatCount : ℚ)) := by
  have hbc : getBarBeatCount engineWith72Rit 72 = 2 := by decide
  have hl : engineWith72Rit.tempoHintByBarIndex.lookup 72 = some 60 := by decide
  refine ⟨hbc, ?_, ?_, ?_⟩
  · intro fallbackBeatSec
    rw [hbc]
    simp only [getExpectedBarDurationSec, hl]
    rw [if_pos (by norm_num : (0 : ℚ) < 60)]
    norm_num
  · intro e barIndex beatCount fallbackBeatSec hintBpm hlk hpos
    simp only [getExpectedBarDurationSec, hlk]
    rw [if_pos hpos]
  · intro e barIndex beatCount fallbackBeatSec hlk
    simp only [getExpectedBarDurationSec, hlk]

/-- Witness for C8: the hint branch at bar 72 of `with72_rit` and the
no-hint branch at bar 0 of the default pattern. -/
theorem expected_bar_duration_hint_witness :
    (engineWith72Rit.tempoHintByBarIndex.lookup 72 = some 60 ∧ (0 : ℚ) < 60 ∧
     getExpectedBarDurationSec engineWith72Rit 72 4 (3 / 4) = (60 / 60) * ((4 : ℕ) : ℚ)) ∧
    ((mkEngine no72).tempoHintByBarIndex.lookup 0 = none ∧
     getExpectedBarDurationSec (mkEngine no72) 0 4 (3 / 4) = (3 / 4) * ((4 : ℕ) : ℚ)) := by
  refine ⟨⟨by decide, by norm_num, ?_⟩, ⟨by decide, ?_⟩⟩
  · exact expected_bar_duration_hint.2.2.1 engineWith72Rit 72 4 (3 / 4) 60 (by decide)
      (by norm_num)
  · exact expected_bar_duration_hint.2.2.2 (mkEngine no72) 0 4 (3 / 4) (by decide)

end PianoEngine
